import Mathlib

/-!
Verification development for the pywssocks SOCKS5-over-WebSocket server
(`pywssocks/server.py`).  The Python data structures are shallowly embedded:
dictionaries become association lists, `asyncio` state machines become explicit
step functions over state records, and wall-clock time is measured in
deciseconds (one decisecond = the 100 ms poll interval of the source).
-/

set_option autoImplicit false

namespace Pywssocks

variable {κ : Type} {α : Type} [DecidableEq κ]

/-- Association-list lookup, mirroring Python `d[k]` / `d.get(k)`. -/
def alookup (k : κ) : List (κ × α) → Option α
  | [] => none
  | (k', v) :: rest => if k' = k then some v else alookup k rest

/-- Association-list update, mirroring Python `d[k] = v`. -/
def aset (k : κ) (v : α) : List (κ × α) → List (κ × α)
  | [] => [(k, v)]
  | (k', v') :: rest => if k' = k then (k, v) :: rest else (k', v') :: aset k v rest

/-- Association-list deletion, mirroring Python `del d[k]`. -/
def aremove (k : κ) : List (κ × α) → List (κ × α)
  | [] => []
  | (k', v) :: rest => if k' = k then aremove k rest else (k', v) :: aremove k rest

theorem alookup_aset_self (k : κ) (v : α) (l : List (κ × α)) :
    alookup k (aset k v l) = some v := by
  induction l with
  | nil => simp [aset, alookup]
  | cons hd tl ih =>
    cases hd with
    | mk k' v' =>
      by_cases h : k' = k
      · simp [aset, h, alookup]
      · simp [aset, h, alookup, ih]

theorem alookup_aset_ne (k k' : κ) (v : α) (l : List (κ × α)) (h : k ≠ k') :
    alookup k' (aset k v l) = alookup k' l := by
  induction l with
  | nil => simp [aset, alookup, h]
  | cons hd tl ih =>
    cases hd with
    | mk k0 v0 =>
      by_cases h0 : k0 = k
      · subst h0
        simp [aset, alookup, h]
      · simp only [aset, if_neg h0]
        by_cases h1 : k0 = k'
        · simp [alookup, h1]
        · simp [alookup, h1, ih]

theorem alookup_aremove_self (k : κ) (l : List (κ × α)) :
    alookup k (aremove k l) = none := by
  induction l with
  | nil => simp [aremove, alookup]
  | cons hd tl ih =>
    cases hd with
    | mk k0 v0 =>
      by_cases h0 : k0 = k
      · simp [aremove, h0, ih]
      · simp [aremove, h0, alookup, ih]

theorem alookup_aremove_ne (k k' : κ) (l : List (κ × α)) (h : k ≠ k') :
    alookup k' (aremove k l) = alookup k' l := by
  induction l with
  | nil => simp [aremove]
  | cons hd tl ih =>
    cases hd with
    | mk k0 v0 =>
      by_cases h0 : k0 = k
      · subst h0
        simp [aremove, alookup, h, ih]
      · by_cases h1 : k0 = k'
        · subst h1
          simp [aremove, h0, alookup, ih]
        · simp [aremove, h0, alookup, h1, ih]

theorem alookup_none_aremove (k k' : κ) (l : List (κ × α))
    (h : alookup k' l = none) : alookup k' (aremove k l) = none := by
  by_cases hk : k = k'
  · subst hk
    exact alookup_aremove_self k l
  · rw [alookup_aremove_ne k k' l hk]
    exact h

end Pywssocks

namespace Pywssocks

/-! ## SocketManager (`server.py` lines 22-148)

An entry of `SocketManager._sockets` is a `(socket, timestamp, refs)` triple;
we abstract a live OS socket to a numeric identity drawn from a fresh counter,
and record the list of closed socket identities so that "closed at most
once" is expressible.  `_cleanup_socket` firing after its grace sleep is
modelled as an event that may occur at any moment, a sound over-approximation
of the timer for the safety properties proved below. -/

structure SockEntry where
  sockId : Nat
  ts : Nat
  refs : Nat
  deriving DecidableEq, Repr

structure SMState where
  sockets : Nat → Option SockEntry
  nextId : Nat
  closed : List Nat

def SMState.init : SMState := ⟨fun _ => none, 0, []⟩

/-- Events of the socket manager: `get_socket`, `release_socket` (with the
event-loop time it observes), and a pending `_cleanup_socket` task firing. -/
inductive SMEvent
  | get (port : Nat)
  | release (port : Nat) (t : Nat)
  | fire (port : Nat)

def updSock (p : Nat) (v : Option SockEntry) (f : Nat → Option SockEntry) :
    Nat → Option SockEntry :=
  fun q => if q = p then v else f q

/-- One step of `SocketManager`, transcribed from `get_socket`,
`release_socket` and `_cleanup_socket`.  Note that `get_socket` on an existing
entry increments `refs` but keeps the stored `timestamp` unchanged
(`server.py:54`), and `release_socket` stores timestamp `0` when the
decremented count stays positive (`server.py:97`). -/
def smStep (s : SMState) : SMEvent → SMState
  | .get p =>
    match s.sockets p with
    | some e =>
      { s with sockets := updSock p (some ⟨e.sockId, e.ts, e.refs + 1⟩) s.sockets }
    | none =>
      { s with sockets := updSock p (some ⟨s.nextId, 0, 1⟩) s.sockets,
               nextId := s.nextId + 1 }
  | .release p t =>
    match s.sockets p with
    | none => s
    | some e =>
      if e.refs ≤ 1 then
        { s with sockets := updSock p (some ⟨e.sockId, t, 0⟩) s.sockets }
      else
        { s with sockets := updSock p (some ⟨e.sockId, 0, e.refs - 1⟩) s.sockets }
  | .fire p =>
    match s.sockets p with
    | none => s
    | some e =>
      if e.refs = 0 ∧ 0 < e.ts then
        { s with sockets := updSock p none s.sockets,
                 closed := s.closed ++ [e.sockId] }
      else s

/-- States reachable from the fresh socket manager. -/
inductive SMReaches : SMState → Prop
  | init : SMReaches SMState.init
  | step (s : SMState) (e : SMEvent) : SMReaches s → SMReaches (smStep s e)

/-- Well-formedness invariant used to show each socket is closed at most
once: closed identities are distinct, below the fresh counter, and disjoint
from the live entries, whose identities are also distinct and below the
counter. -/
def SMGood (s : SMState) : Prop :=
  s.closed.Nodup ∧
  (∀ i ∈ s.closed, i < s.nextId) ∧
  (∀ i ∈ s.closed, ∀ p e, s.sockets p = some e → e.sockId ≠ i) ∧
  (∀ p e, s.sockets p = some e → e.sockId < s.nextId) ∧
  (∀ p q ep eq', p ≠ q → s.sockets p = some ep → s.sockets q = some eq' →
    ep.sockId ≠ eq'.sockId)

theorem smGood_init : SMGood SMState.init := by
  refine ⟨List.nodup_nil, ?_, ?_, ?_, ?_⟩ <;> simp [SMState.init]

/-- Replacing the entry at an occupied port, keeping its socket identity,
preserves the invariant. -/
theorem smGood_replace (s : SMState) (p : Nat) (e0 e1 : SockEntry)
    (hsp : s.sockets p = some e0) (hid : e1.sockId = e0.sockId) (h : SMGood s) :
    SMGood { s with sockets := updSock p (some e1) s.sockets } := by
  obtain ⟨hnd, hlt, hdisj, hltv, hinj⟩ := h
  refine ⟨hnd, hlt, ?_, ?_, ?_⟩
  · intro i hmem q e hq
    simp only [updSock] at hq
    by_cases hqp : q = p
    · rw [if_pos hqp] at hq
      cases hq
      rw [hid]
      exact hdisj i hmem p e0 hsp
    · rw [if_neg hqp] at hq
      exact hdisj i hmem q e hq
  · intro q e hq
    simp only [updSock] at hq
    by_cases hqp : q = p
    · rw [if_pos hqp] at hq
      cases hq
      rw [hid]
      exact hltv p e0 hsp
    · rw [if_neg hqp] at hq
      exact hltv q e hq
  · intro q r eq1 er1 hqr hq hr
    simp only [updSock] at hq hr
    by_cases hqp : q = p <;> by_cases hrp : r = p
    · exact absurd (hqp.trans hrp.symm) hqr
    · rw [if_pos hqp] at hq
      rw [if_neg hrp] at hr
      cases hq
      have hq0 : s.sockets q = some e0 := by rw [hqp]; exact hsp
      rw [hid]
      exact hinj q r e0 er1 hqr hq0 hr
    · rw [if_neg hqp] at hq
      rw [if_pos hrp] at hr
      cases hr
      have hr0 : s.sockets r = some e0 := by rw [hrp]; exact hsp
      rw [hid]
      exact hinj q r eq1 e0 hqr hq hr0
    · rw [if_neg hqp] at hq
      rw [if_neg hrp] at hr
      exact hinj q r eq1 er1 hqr hq hr

/-- Installing a fresh entry with the next identity preserves the invariant. -/
theorem smGood_fresh (s : SMState) (p : Nat) (_hsp : s.sockets p = none)
    (h : SMGood s) :
    SMGood { s with sockets := updSock p (some ⟨s.nextId, 0, 1⟩) s.sockets,
                    nextId := s.nextId + 1 } := by
  obtain ⟨hnd, hlt, hdisj, hltv, hinj⟩ := h
  refine ⟨hnd, ?_, ?_, ?_, ?_⟩
  · intro i hmem
    exact Nat.lt_succ_of_lt (hlt i hmem)
  · intro i hmem q e hq
    simp only [updSock] at hq
    by_cases hqp : q = p
    · rw [if_pos hqp] at hq
      cases hq
      exact fun hcon => absurd (hcon ▸ hlt i hmem) (Nat.lt_irrefl _)
    · rw [if_neg hqp] at hq
      exact hdisj i hmem q e hq
  · intro q e hq
    simp only [updSock] at hq
    by_cases hqp : q = p
    · rw [if_pos hqp] at hq
      cases hq
      exact Nat.lt_succ_self _
    · rw [if_neg hqp] at hq
      exact Nat.lt_succ_of_lt (hltv q e hq)
  · intro q r eq1 er1 hqr hq hr
    simp only [updSock] at hq hr
    by_cases hqp : q = p <;> by_cases hrp : r = p
    · exact absurd (hqp.trans hrp.symm) hqr
    · rw [if_pos hqp] at hq
      rw [if_neg hrp] at hr
      cases hq
      exact fun hcon => absurd (hcon ▸ hltv r er1 hr) (Nat.lt_irrefl _)
    · rw [if_neg hqp] at hq
      rw [if_pos hrp] at hr
      cases hr
      exact fun hcon => absurd (hcon ▸ hltv q eq1 hq) (Nat.lt_irrefl _)
    · rw [if_neg hqp] at hq
      rw [if_neg hrp] at hr
      exact hinj q r eq1 er1 hqr hq hr

/-- Deleting the entry at a port and recording its identity as closed
preserves the invariant. -/
theorem smGood_delete (s : SMState) (p : Nat) (e0 : SockEntry)
    (hsp : s.sockets p = some e0) (h : SMGood s) :
    SMGood { s with sockets := updSock p none s.sockets,
                    closed := s.closed ++ [e0.sockId] } := by
  obtain ⟨hnd, hlt, hdisj, hltv, hinj⟩ := h
  refine ⟨?_, ?_, ?_, ?_, ?_⟩
  · rw [List.nodup_append]
    refine ⟨hnd, List.nodup_singleton _, ?_⟩
    intro i hi hmem
    simp only [List.mem_singleton] at hmem
    subst hmem
    exact hdisj _ hi p e0 hsp rfl
  · intro i hmem
    rcases List.mem_append.1 hmem with h1 | h1
    · exact hlt i h1
    · simp only [List.mem_singleton] at h1
      subst h1
      exact hltv p e0 hsp
  · intro i hmem q e hq
    simp only [updSock] at hq
    by_cases hqp : q = p
    · rw [if_pos hqp] at hq
      cases hq
    · rw [if_neg hqp] at hq
      rcases List.mem_append.1 hmem with h1 | h1
      · exact hdisj i h1 q e hq
      · simp only [List.mem_singleton] at h1
        subst h1
        exact hinj q p e e0 hqp hq hsp
  · intro q e hq
    simp only [updSock] at hq
    by_cases hqp : q = p
    · rw [if_pos hqp] at hq
      cases hq
    · rw [if_neg hqp] at hq
      exact hltv q e hq
  · intro q r eq1 er1 hqr hq hr
    simp only [updSock] at hq hr
    by_cases hqp : q = p
    · rw [if_pos hqp] at hq
      cases hq
    · by_cases hrp : r = p
      · rw [if_pos hrp] at hr
        cases hr
      · rw [if_neg hqp] at hq
        rw [if_neg hrp] at hr
        exact hinj q r eq1 er1 hqr hq hr

theorem smGood_step (s : SMState) (e : SMEvent) (h : SMGood s) :
    SMGood (smStep s e) := by
  cases e with
  | get p =>
    cases hsp : s.sockets p with
    | some e0 =>
      have hstep : smStep s (.get p) =
          { s with sockets :=
              updSock p (some ⟨e0.sockId, e0.ts, e0.refs + 1⟩) s.sockets } := by
        simp [smStep, hsp]
      rw [hstep]
      exact smGood_replace s p e0 _ hsp rfl h
    | none =>
      have hstep : smStep s (.get p) =
          { s with sockets := updSock p (some ⟨s.nextId, 0, 1⟩) s.sockets,
                   nextId := s.nextId + 1 } := by
        simp [smStep, hsp]
      rw [hstep]
      exact smGood_fresh s p hsp h
  | release p t =>
    cases hsp : s.sockets p with
    | none =>
      have hstep : smStep s (.release p t) = s := by
        simp [smStep, hsp]
      rw [hstep]
      exact h
    | some e0 =>
      by_cases hr : e0.refs ≤ 1
      · have hstep : smStep s (.release p t) =
            { s with sockets := updSock p (some ⟨e0.sockId, t, 0⟩) s.sockets } := by
          simp [smStep, hsp, hr]
        rw [hstep]
        exact smGood_replace s p e0 _ hsp rfl h
      · have hstep : smStep s (.release p t) =
            { s with sockets :=
                updSock p (some ⟨e0.sockId, 0, e0.refs - 1⟩) s.sockets } := by
          simp [smStep, hsp, hr]
        rw [hstep]
        exact smGood_replace s p e0 _ hsp rfl h
  | fire p =>
    cases hsp : s.sockets p with
    | none =>
      have hstep : smStep s (.fire p) = s := by
        simp [smStep, hsp]
      rw [hstep]
      exact h
    | some e0 =>
      by_cases hg : e0.refs = 0 ∧ 0 < e0.ts
      · have hstep : smStep s (.fire p) =
            { s with sockets := updSock p none s.sockets,
                     closed := s.closed ++ [e0.sockId] } := by
          simp [smStep, hsp, hg]
        rw [hstep]
        exact smGood_delete s p e0 hsp h
      · have hstep : smStep s (.fire p) = s := by
          simp [smStep, hsp, hg]
        rw [hstep]
        exact h

theorem smGood_reaches (s : SMState) (h : SMReaches s) : SMGood s := by
  induction h with
  | init => exact smGood_init
  | step s e _ ih => exact smGood_step s e ih

/-- A pending cleanup firing on an entry that is not in the grace state
(nonzero refs or zero timestamp) changes nothing. -/
theorem smStep_fire_noop (s : SMState) (p : Nat) (e : SockEntry)
    (hsp : s.sockets p = some e) (h : ¬(e.refs = 0 ∧ 0 < e.ts)) :
    smStep s (.fire p) = s := by
  simp [smStep, hsp, h]

/-- A pending cleanup firing on an absent entry changes nothing. -/
theorem smStep_fire_absent (s : SMState) (p : Nat)
    (hsp : s.sockets p = none) : smStep s (.fire p) = s := by
  simp [smStep, hsp]

end Pywssocks

namespace Pywssocks

/-! ## WSSocksServer registry (`server.py` lines 151-747)

Tokens are strings; client ids (`uuid4`), WebSocket connections and ports are
numeric identities.  The Python dictionaries `_tokens`, `_token_clients`,
`_token_indexes`, `_clients`, `_forward_clients` and `_socks_auth` become
association lists; the dictionaries `_token_locks` and `_socks_tasks`, whose
values (locks, tasks) carry no state we need, become key lists. -/

structure SrvState where
  tokens : List (String × Nat)
  forwardTokens : List String
  tokenLocks : List String
  tokenClients : List (String × List (Nat × Nat))
  tokenIndexes : List (String × Nat)
  clients : List (Nat × Nat)
  forwardClients : List (Nat × Nat)
  socksAuth : List (String × (String × String))
  pendingTokens : List String
  socksTasks : List Nat
  pool : List Nat
  messageQueues : List String
  loopRunning : Bool
  deriving DecidableEq, Repr

def SrvState.init (pool : List Nat) (loopRunning : Bool) : SrvState :=
  ⟨[], [], [], [], [], [], [], [], [], [], pool, [], loopRunning⟩

/-- Key-set removal for dictionaries modelled as key lists (`del d[k]`). -/
def sremove (x : String) (l : List String) : List String :=
  l.filter (fun y => y ≠ x)

def nremove (x : Nat) (l : List Nat) : List Nat :=
  l.filter (fun y => y ≠ x)

/-- Modelled from the spec: `PortPool.get(preferred?)` of `pywssocks.common`
(not under `src/`).  With a preferred port it succeeds only if that port is
currently free; without preference it returns any free port. -/
def poolGet (free : List Nat) (pref : Option Nat) : Option Nat × List Nat :=
  match pref with
  | some p => if p ∈ free then (some p, nremove p free) else (none, free)
  | none =>
    match free with
    | [] => (none, [])
    | p :: rest => (some p, rest)

/-- Modelled from the spec: `PortPool.put(port)` of `pywssocks.common`
(not under `src/`).  Returns a port to the pool; double-put is idempotent. -/
def poolPut (free : List Nat) (p : Nat) : List Nat :=
  if p ∈ free then free else free ++ [p]

/-- `add_reverse_token` (`server.py:239-279`).  `genTok` stands for the random
16-character token drawn when `token is None`.  The `p ≠ 0` test mirrors the
Python truthiness check `if port:` on the pool's result. -/
def addReverseToken (s : SrvState) (genTok : String) (token : Option String)
    (port : Option Nat) (username password : Option String) :
    (Option String × Option Nat) × SrvState :=
  let t := token.getD genTok
  match alookup t s.tokens with
  | some p => ((some t, some p), s)
  | none =>
    match poolGet s.pool port with
    | (some p, pool') =>
      if p ≠ 0 then
        ((some t, some p),
         { s with tokens := aset t p s.tokens,
                  tokenLocks :=
                    if t ∈ s.tokenLocks then s.tokenLocks else s.tokenLocks ++ [t],
                  socksAuth :=
                    match username, password with
                    | some u, some pw => aset t (u, pw) s.socksAuth
                    | _, _ => s.socksAuth,
                  pendingTokens :=
                    if s.loopRunning then s.pendingTokens
                    else s.pendingTokens ++ [t],
                  pool := pool' })
      else ((none, none), { s with pool := pool' })
    | (none, pool') => ((none, none), { s with pool := pool' })

/-- `add_forward_token` (`server.py:281-296`). -/
def addForwardToken (s : SrvState) (genTok : String) (token : Option String) :
    String × SrvState :=
  let t := token.getD genTok
  (t, { s with forwardTokens :=
          if t ∈ s.forwardTokens then s.forwardTokens
          else s.forwardTokens ++ [t] })

/-- `remove_token` (`server.py:298-375`).  The middle component lists the
`ws.close(code, reason)` calls issued (only scheduled when the event loop is
running, as in the source). -/
def removeToken (s : SrvState) (token : String) :
    Bool × List (Nat × Nat × String) × SrvState :=
  match alookup token s.tokens with
  | some port =>
    let cl := (alookup token s.tokenClients).getD []
    let closes :=
      if s.loopRunning then cl.map (fun c => (c.2, 1000, "Token removed")) else []
    (true, closes,
     { s with
        clients := cl.foldl (fun m c => aremove c.1 m) s.clients,
        tokenClients := aremove token s.tokenClients,
        tokens := aremove token s.tokens,
        tokenLocks := sremove token s.tokenLocks,
        tokenIndexes := aremove token s.tokenIndexes,
        socksAuth := aremove token s.socksAuth,
        pendingTokens := s.pendingTokens.erase token,
        socksTasks := nremove port s.socksTasks,
        pool := poolPut s.pool port })
  | none =>
    if token ∈ s.forwardTokens then
      let closes :=
        if s.loopRunning then
          s.forwardClients.map (fun c => (c.2, 1000, "Token removed"))
        else []
      (true, closes,
       { s with forwardClients := [],
                forwardTokens := sremove token s.forwardTokens })
    else (false, [], s)

/-- Registration of an authenticated reverse client
(`server.py:511-531`): append to the token's client list, ensure the SOCKS
server task for its port is running, record the client globally. -/
def authReverse (s : SrvState) (t : String) (uuid ws : Nat) : SrvState :=
  let cl := (alookup t s.tokenClients).getD []
  let port := (alookup t s.tokens).getD 0
  { s with tokenClients := aset t (cl ++ [(uuid, ws)]) s.tokenClients,
           socksTasks :=
             if port ∈ s.socksTasks then s.socksTasks else s.socksTasks ++ [port],
           clients := aset uuid ws s.clients }

/-- `_cleanup_connection` (`server.py:583-607`): filter the client out of its
token's list, dropping the list and the round-robin index only when the list
becomes empty, then drop the global client entry.  The stored index is NOT
adjusted when the list stays non-empty. -/
def cleanupConnection (s : SrvState) (uuid : Nat) (token : String) : SrvState :=
  match alookup token s.tokenClients with
  | none => { s with clients := aremove uuid s.clients }
  | some cl =>
    let cl' := cl.filter (fun c => c.1 ≠ uuid)
    if cl'.isEmpty then
      { s with tokenClients := aremove token s.tokenClients,
               tokenIndexes := aremove token s.tokenIndexes,
               clients := aremove uuid s.clients }
    else
      { s with tokenClients := aset token cl' s.tokenClients,
               clients := aremove uuid s.clients }

/-- The indexing step of `_get_next_websocket` (`server.py:438-441`): try the
computed index, falling back to the first client on an indexing failure. -/
def pickClient (cl : List (Nat × Nat)) (idx : Nat) : Option Nat :=
  match cl[idx]? with
  | some c => some c.2
  | none => cl[0]?.map (fun c => c.2)

/-- `_get_next_websocket` (`server.py:418-441`): round-robin selection.  A
missing index entry counts as `0`; the updated index is `(index + 1) mod n`. -/
def getNextWebsocket (s : SrvState) (token : String) : Option Nat × SrvState :=
  match alookup token s.tokenClients with
  | none => (none, s)
  | some cl =>
    if cl.isEmpty then (none, s)
    else
      let cur := (alookup token s.tokenIndexes).getD 0
      let idx := (cur + 1) % cl.length
      (pickClient cl idx,
       { s with tokenIndexes := aset token idx s.tokenIndexes })

/-! ## WebSocket session authentication (`server.py:492-546`) -/

/-- A JSON value observed in the `reverse` field: a boolean, a number (JSON
integers and floats, represented as rationals), or anything else (string,
null, array, object). -/
inductive RevField
  | b (v : Bool)
  | num (q : Rat)
  | other
  deriving DecidableEq, Repr

/-- Python `reverse == True` on the JSON value of the `reverse` field (an
absent field reads as `None`): `True` compares equal to the boolean `True`
and to the numbers `1`/`1.0`, and to nothing else. -/
def pyEqTrue : Option RevField → Bool
  | some (.b v) => v
  | some (.num q) => decide (q = 1)
  | _ => false

/-- Python `reverse == False`: `False` compares equal to the boolean `False`
and to the numbers `0`/`0.0`, and to nothing else. -/
def pyEqFalse : Option RevField → Bool
  | some (.b v) => !v
  | some (.num q) => decide (q = 0)
  | _ => false

/-- The fields of a parsed first message relevant to authentication. -/
structure AuthJson where
  ty : Option String
  token : Option String
  reverse : Option RevField
  deriving DecidableEq, Repr

/-- The first inbound WebSocket message: either not a JSON object (so that
`json.loads` / attribute access raises) or a JSON object. -/
inductive InMsg
  | notJson
  | json (m : AuthJson)
  deriving DecidableEq, Repr

inductive AuthOutcome
  | errorNoClose
  | closeInvalidAuth
  | failInvalidToken
  | okReverse (clientId : Nat)
  | okForward (clientId : Nat)
  deriving DecidableEq, Repr

/-- The authentication phase of `_handle_websocket` (`server.py:498-546`).
`freshId` stands for the `uuid4()` drawn on success, `wsId` for the session's
WebSocket.  A non-JSON first message raises inside the outer `try`, so the
session ends with no 1008 close; a JSON object whose `type` is not `"auth"`
is closed with 1008 "Invalid auth message".  The kind checks are the Python
`==` comparisons `reverse == True` / `reverse == False`
(`server.py:511,533`), under which the `reverse` values `1`/`1.0` count as
true and `0`/`0.0` as false; an auth message passing neither kind check, or
naming no registered token of the matched kind (a missing token reads as
`None`, which is in no registry), gets a failure response then 1008
"Invalid token". -/
def handleAuth (s : SrvState) (m : InMsg) (freshId wsId : Nat) :
    AuthOutcome × SrvState :=
  match m with
  | .notJson => (.errorNoClose, s)
  | .json a =>
    if a.ty = some "auth" then
      match a.token with
      | some t =>
        if pyEqTrue a.reverse ∧ (alookup t s.tokens).isSome then
          (.okReverse freshId, authReverse s t freshId wsId)
        else if pyEqFalse a.reverse ∧ t ∈ s.forwardTokens then
          (.okForward freshId,
           { s with forwardClients := aset freshId wsId s.forwardClients })
        else (.failInvalidToken, s)
      | none => (.failInvalidToken, s)
    else (.closeInvalidAuth, s)

/-! ## Message dispatcher (`server.py:632-688`) -/

structure Frame where
  ty : String
  chanId : String
  deriving DecidableEq, Repr

inductive DispatchAction
  | deliverData (chan : String)
  | dropData (chan : String)
  | deliverConnectResp (cid : String)
  | dropConnectResp (cid : String)
  | spawnConnect
  | ignore
  deriving DecidableEq, Repr

/-- One iteration of `_message_dispatcher` (`server.py:645-669`): route `data`
and `connect_response` frames by channel, spawn a network-connection handler
for `connect` only when the session's client id is a forward client. -/
def dispatchFrame (s : SrvState) (clientId : Nat) (f : Frame) : DispatchAction :=
  if f.ty = "data" then
    if f.chanId ∈ s.messageQueues then .deliverData f.chanId
    else .dropData f.chanId
  else if f.ty = "connect_response" then
    if f.chanId ∈ s.messageQueues then .deliverConnectResp f.chanId
    else .dropConnectResp f.chanId
  else if f.ty = "connect" ∧ (alookup clientId s.forwardClients).isSome then
    .spawnConnect
  else .ignore

/-! ## SOCKS request handling (`server.py:443-475`)

Time is measured in deciseconds; the 10-second limit is 100 deciseconds and
each `asyncio.sleep(0.1)` advances the clock by at least one decisecond.
`time i` is the event-loop time observed at the i-th poll; the fuel bounds the
number of polls only to make the recursion structural, and exceeding the
10-second budget is reported as a timeout exactly as in the source. -/

/-- The `while loop.time() - wait_start < 10` poll of `_handle_socks_request`
(`server.py:450-454`).  Returns `some i` if the i-th poll observes a client
(the `break`), `none` on timeout. -/
def pollLoop (present : Nat → Bool) (time : Nat → Nat) (start : Nat) :
    Nat → Nat → Option Nat
  | 0, _ => none
  | fuel + 1, i =>
    if start + 100 ≤ time i then none
    else if present i then some i
    else pollLoop present time start fuel (i + 1)

/-- `token in self._token_clients and self._token_clients[token]`
(`server.py:452`). -/
def clientsPresent (s : SrvState) (token : String) : Bool :=
  !((alookup token s.tokenClients).getD []).isEmpty

inductive SocksOutcome
  | refuse (code : Nat)
  | relay (ws : Nat)
  deriving DecidableEq, Repr

/-- `_handle_socks_request` (`server.py:443-475`) up to the hand-off to the
relay.  `stateAt i` is the registry state observed at the i-th poll; when the
token's entry is present on arrival no wait occurs. -/
def handleSocksRequest (stateAt : Nat → SrvState) (token : String)
    (time : Nat → Nat) (fuel : Nat) : SocksOutcome × SrvState :=
  if (alookup token (stateAt 0).tokenClients).isNone then
    match pollLoop (fun i => clientsPresent (stateAt i) token) time (time 0)
        fuel 0 with
    | none => (.refuse 3, stateAt 0)
    | some i =>
      match getNextWebsocket (stateAt i) token with
      | (none, s') => (.refuse 3, s')
      | (some ws, s') => (.relay ws, s')
  else
    match getNextWebsocket (stateAt 0) token with
    | (none, s') => (.refuse 3, s')
    | (some ws, s') => (.relay ws, s')

/-! ## Registry transition system

Events of the registry: admin calls, session authentication, round-robin
selection (which requires the token's lock to exist, as the source indexes
`_token_locks[token]`), and session cleanup. -/

inductive SrvEvent
  | addReverse (genTok : String) (token : Option String) (port : Option Nat)
      (username password : Option String)
  | addForward (genTok : String) (token : Option String)
  | removeTok (token : String)
  | wsAuth (m : InMsg) (freshId wsId : Nat)
  | select (token : String)
  | disconnect (clientId : Nat) (token : String)

def srvStep (s : SrvState) : SrvEvent → SrvState
  | .addReverse g t p u pw => (addReverseToken s g t p u pw).2
  | .addForward g t => (addForwardToken s g t).2
  | .removeTok t => (removeToken s t).2.2
  | .wsAuth m f w => (handleAuth s m f w).2
  | .select t => if t ∈ s.tokenLocks then (getNextWebsocket s t).2 else s
  | .disconnect c t => cleanupConnection s c t

inductive SrvReaches : SrvState → Prop
  | init (pool : List Nat) (lr : Bool) : SrvReaches (SrvState.init pool lr)
  | step (s : SrvState) (e : SrvEvent) : SrvReaches s → SrvReaches (srvStep s e)

end Pywssocks

namespace Pywssocks

/-! ## Helper lemmas -/

theorem pickClient_lt (cl : List (Nat × Nat)) (idx : Nat) (h : idx < cl.length) :
    pickClient cl idx = cl[idx]?.map (fun c => c.2) := by
  cases hg : cl[idx]? with
  | some c => simp [pickClient, hg]
  | none =>
    exact absurd h (Nat.not_lt.2 (List.getElem?_eq_none_iff.1 hg))

theorem pickClient_ge (cl : List (Nat × Nat)) (idx : Nat) (h : cl.length ≤ idx) :
    pickClient cl idx = cl[0]?.map (fun c => c.2) := by
  have hg : cl[idx]? = none := List.getElem?_eq_none h
  simp [pickClient, hg]

theorem poolGet_none_pool (free : List Nat) (pref : Option Nat)
    (h : (poolGet free pref).1 = none) : (poolGet free pref).2 = free := by
  cases pref with
  | some p =>
    by_cases hp : p ∈ free
    · simp [poolGet, hp] at h
    · simp [poolGet, hp]
  | none =>
    cases free with
    | nil => rfl
    | cons q rest => simp [poolGet] at h

theorem mem_poolPut_self (free : List Nat) (p : Nat) : p ∈ poolPut free p := by
  by_cases hp : p ∈ free
  · simp [poolPut, hp]
  · simp [poolPut, hp]

theorem not_mem_nremove_self (p : Nat) (l : List Nat) : p ∉ nremove p l := by
  intro h
  have := List.mem_filter.1 h
  simp at this

theorem alookup_foldl_aremove_none (cl : List (Nat × Nat)) (m : List (Nat × Nat))
    (k : Nat) (h : alookup k m = none) :
    alookup k (cl.foldl (fun acc c => aremove c.1 acc) m) = none := by
  induction cl generalizing m with
  | nil => exact h
  | cons hd tl ih =>
    exact ih (aremove hd.1 m) (alookup_none_aremove hd.1 k m h)

theorem alookup_foldl_aremove (cl : List (Nat × Nat)) (m : List (Nat × Nat)) :
    ∀ c ∈ cl, alookup c.1 (cl.foldl (fun acc c => aremove c.1 acc) m) = none := by
  induction cl generalizing m with
  | nil => intro c hc; cases hc
  | cons hd tl ih =>
    intro c hc
    rcases List.mem_cons.1 hc with h1 | h1
    · subst h1
      exact alookup_foldl_aremove_none tl (aremove c.1 m) c.1
        (alookup_aremove_self c.1 m)
    · exact ih (aremove hd.1 m) c h1

/-! ## Claims about round-robin selection -/

/-- Claim C1: round-robin selection.  On a non-empty client list of length n
the stored cursor becomes `(cursor + 1) mod n` (an absent cursor counting as
0) and the websocket of the client at the new cursor is returned; the new
cursor is always in range.  With an absent or empty list the call returns
none and leaves the state unchanged.  If indexing at the cursor fails the
fallback returns the client at index 0.  A first selection on a freshly
populated list of length at least 2 returns the client at index 1. -/
theorem round_robin_select_spec :
    (∀ (s : SrvState) (token : String) (cl : List (Nat × Nat)),
      alookup token s.tokenClients = some cl → cl ≠ [] →
      (getNextWebsocket s token).1 =
        cl[((alookup token s.tokenIndexes).getD 0 + 1) % cl.length]?.map
          (fun c => c.2) ∧
      alookup token (getNextWebsocket s token).2.tokenIndexes =
        some (((alookup token s.tokenIndexes).getD 0 + 1) % cl.length) ∧
      ((alookup token s.tokenIndexes).getD 0 + 1) % cl.length < cl.length) ∧
    (∀ (s : SrvState) (token : String),
      alookup token s.tokenClients = none → getNextWebsocket s token = (none, s)) ∧
    (∀ (s : SrvState) (token : String),
      alookup token s.tokenClients = some [] →
      getNextWebsocket s token = (none, s)) ∧
    (∀ (cl : List (Nat × Nat)) (idx : Nat), cl.length ≤ idx →
      pickClient cl idx = cl[0]?.map (fun c => c.2)) ∧
    (∀ (s : SrvState) (token : String) (cl : List (Nat × Nat)),
      alookup token s.tokenClients = some cl →
      alookup token s.tokenIndexes = none → 2 ≤ cl.length →
      (getNextWebsocket s token).1 = cl[1]?.map (fun c => c.2)) := by
  refine ⟨?_, ?_, ?_, pickClient_ge, ?_⟩
  · intro s token cl hcl hne
    have hpos : 0 < cl.length := List.length_pos.2 hne
    have hemp : cl.isEmpty = false := by
      cases cl with
      | nil => exact absurd rfl hne
      | cons a l => rfl
    have hidx : ((alookup token s.tokenIndexes).getD 0 + 1) % cl.length <
        cl.length := Nat.mod_lt _ hpos
    refine ⟨?_, ?_, hidx⟩
    · simp only [getNextWebsocket, hcl, hemp]
      simp [pickClient_lt cl _ hidx]
    · simp only [getNextWebsocket, hcl, hemp]
      simp [alookup_aset_self]
  · intro s token hcl
    simp [getNextWebsocket, hcl]
  · intro s token hcl
    simp [getNextWebsocket, hcl]
  · intro s token cl hcl hidx hlen
    have hne : cl ≠ [] := by
      intro hcon
      subst hcon
      simp at hlen
    have hemp : cl.isEmpty = false := by
      cases cl with
      | nil => exact absurd rfl hne
      | cons a l => rfl
    have h1 : (1 : Nat) % cl.length = 1 := Nat.mod_eq_of_lt (by omega)
    have hlt : 1 < cl.length := by omega
    simp only [getNextWebsocket, hcl, hemp, hidx]
    simp [Option.getD, h1, pickClient_lt cl 1 hlt]

def sampleRev : SrvState :=
  { tokens := [("T", 1080)], forwardTokens := ["F"], tokenLocks := ["T"],
    tokenClients := [("T", [(1, 101), (2, 102)])], tokenIndexes := [],
    clients := [(1, 101), (2, 102)], forwardClients := [(7, 107)],
    socksAuth := [], pendingTokens := [], socksTasks := [1080],
    pool := [1081], messageQueues := [], loopRunning := true }

theorem round_robin_select_spec_witness :
    alookup "T" sampleRev.tokenClients = some [(1, 101), (2, 102)] ∧
    (getNextWebsocket sampleRev "T").1 = some 102 ∧
    alookup "T" (getNextWebsocket sampleRev "T").2.tokenIndexes = some 1 := by
  have h := round_robin_select_spec.1 sampleRev "T" [(1, 101), (2, 102)]
    (by decide) (by decide)
  refine ⟨by decide, ?_, ?_⟩
  · rw [h.1]; decide
  · rw [h.2.1]; decide

end Pywssocks

namespace Pywssocks

/-! ## Claims about the SocketManager -/

/-- Claim C2: a pending cleanup deletes the entry and closes the socket only
when the entry is still present with zero refs and a positive grace
timestamp; firing against a re-acquired (refs > 0) or absent entry changes
nothing; consequently, along every reachable execution, each socket identity
is closed at most once. -/
theorem socket_cleanup_safety :
    (∀ (s : SMState) (p : Nat) (e : SockEntry), s.sockets p = some e →
      (e.refs ≠ 0 ∨ e.ts = 0) → smStep s (.fire p) = s) ∧
    (∀ (s : SMState) (p : Nat), s.sockets p = none → smStep s (.fire p) = s) ∧
    (∀ (s : SMState) (p : Nat) (e : SockEntry), s.sockets p = some e →
      e.refs = 0 → 0 < e.ts →
      (smStep s (.fire p)).sockets p = none ∧
      (smStep s (.fire p)).closed = s.closed ++ [e.sockId]) ∧
    (∀ (s : SMState) (p : Nat) (e : SockEntry), s.sockets p = some e →
      0 < e.refs → smStep s (.fire p) = s) ∧
    (∀ s : SMState, SMReaches s → s.closed.Nodup) := by
  refine ⟨?_, smStep_fire_absent, ?_, ?_, ?_⟩
  · intro s p e hsp h
    apply smStep_fire_noop s p e hsp
    intro hcon
    rcases h with h | h
    · exact h hcon.1
    · rw [h] at hcon
      exact Nat.lt_irrefl 0 hcon.2
  · intro s p e hsp h0 hts
    constructor
    · simp [smStep, hsp, h0, hts, updSock]
    · simp [smStep, hsp, h0, hts]
  · intro s p e hsp h
    apply smStep_fire_noop s p e hsp
    intro hcon
    rw [hcon.1] at h
    exact Nat.lt_irrefl 0 h
  · intro s h
    exact (smGood_reaches s h).1

/-- The state after `get 1; release 1 (at time 5); get 1` on a fresh manager:
port 1 was re-acquired during its grace window. -/
def smTrace1 : SMState :=
  smStep (smStep (smStep SMState.init (.get 1)) (.release 1 5)) (.get 1)

theorem socket_cleanup_safety_witness :
    smTrace1.sockets 1 = some ⟨0, 5, 1⟩ ∧
    smStep smTrace1 (.fire 1) = smTrace1 ∧
    SMState.init.closed.Nodup := by
  refine ⟨rfl, ?_, ?_⟩
  · exact socket_cleanup_safety.1 smTrace1 1 ⟨0, 5, 1⟩ rfl (Or.inl (by decide))
  · exact socket_cleanup_safety.2.2.2.2 SMState.init SMReaches.init

/-- Claim C3 counterexample: in the reachable state `smTrace1` the entry for
port 1 has `refs = 1 > 0` but `grace_start_time = 5 ≠ 0`, because `get_socket`
on a grace entry keeps the stored timestamp (`server.py:54`); so neither does
every reachable entry with positive refs have a zero timestamp, nor does
re-acquisition reset the timestamp to 0. -/
theorem active_entry_zero_timestamp_counterexample :
    SMReaches smTrace1 ∧
    smTrace1.sockets 1 = some ⟨0, 5, 1⟩ ∧
    (0 : Nat) < 1 ∧ (5 : Nat) ≠ 0 := by
  refine ⟨?_, rfl, by decide, by decide⟩
  exact SMReaches.step _ _ (SMReaches.step _ _ (SMReaches.step _ _ SMReaches.init))

/-- Claim C3 (amended): `get_socket` on a grace entry (refs = 0, positive
timestamp) makes the entry active with `refs = 1` but RETAINS the prior
positive grace timestamp instead of resetting it to 0; the pending cleanup is
nevertheless a no-op on it because refs is nonzero. -/
theorem grace_reacquisition_keeps_timestamp (s : SMState) (p : Nat)
    (e : SockEntry) (hsp : s.sockets p = some e) (h0 : e.refs = 0)
    (_hts : 0 < e.ts) :
    (smStep s (.get p)).sockets p = some ⟨e.sockId, e.ts, 1⟩ ∧
    smStep (smStep s (.get p)) (.fire p) = smStep s (.get p) := by
  have hget : (smStep s (.get p)).sockets p = some ⟨e.sockId, e.ts, 1⟩ := by
    simp [smStep, hsp, updSock, h0]
  refine ⟨hget, ?_⟩
  apply smStep_fire_noop _ p ⟨e.sockId, e.ts, 1⟩ hget
  intro hcon
  exact Nat.one_ne_zero hcon.1

/-- The state after `get 1; release 1 (at time 5)`: port 1 is in grace. -/
def smTraceGrace : SMState :=
  smStep (smStep SMState.init (.get 1)) (.release 1 5)

theorem grace_reacquisition_keeps_timestamp_witness :
    smTraceGrace.sockets 1 = some ⟨0, 5, 0⟩ ∧
    (smStep smTraceGrace (.get 1)).sockets 1 = some ⟨0, 5, 1⟩ := by
  refine ⟨rfl, ?_⟩
  exact (grace_reacquisition_keeps_timestamp smTraceGrace 1 ⟨0, 5, 0⟩ rfl rfl
    (by decide)).1

end Pywssocks

namespace Pywssocks

/-! ## Claims about WebSocket authentication -/

/-- Token validity for the requested kind, as checked by `_handle_websocket`
(`server.py:511` and `server.py:533`): the Python comparisons
`reverse == True` / `reverse == False` followed by registry membership. -/
def validAuth (s : SrvState) (a : AuthJson) : Bool :=
  match a.token with
  | some t =>
    (pyEqTrue a.reverse && (alookup t s.tokens).isSome) ||
    (pyEqFalse a.reverse && decide (t ∈ s.forwardTokens))
  | none => false

/-- A value that Python `==` finds equal to `False` is not equal to
`True`. -/
theorem pyEqTrue_false_of_pyEqFalse (r : Option RevField)
    (h : pyEqFalse r = true) : pyEqTrue r = false := by
  cases r with
  | none => rfl
  | some rf =>
    cases rf with
    | b v => cases v <;> simp_all [pyEqTrue, pyEqFalse]
    | num q =>
      simp only [pyEqFalse, decide_eq_true_eq] at h
      simp only [pyEqTrue, decide_eq_false_iff_not]
      rw [h]
      norm_num
    | other => rfl

/-- Claim C4 counterexample: the message `{type:"auth", token:"T",
reverse:"x"}` (reverse present but neither `true` nor `false`) is not of the
form `{type:"auth", token, reverse: true|false}`, yet the server answers
`auth_response success:false` and closes with 1008 "Invalid token" instead
of closing with 1008 "Invalid auth message"; and `{type:"auth", token:"T",
reverse:1}` with "T" a registered reverse token is not of that form either,
yet it authenticates successfully, because the check is Python
`reverse == True`, which `1` satisfies. -/
theorem auth_close_code_counterexample :
    handleAuth (SrvState.init [] true)
        (.json ⟨some "auth", some "T", some .other⟩) 0 0 =
      (.failInvalidToken, SrvState.init [] true) ∧
    AuthOutcome.failInvalidToken ≠ AuthOutcome.closeInvalidAuth ∧
    (handleAuth sampleRev (.json ⟨some "auth", some "T", some (.num 1)⟩)
      4 104).1 = .okReverse 4 := by
  exact ⟨by decide, by decide, by decide⟩

/-- Claim C4 (amended): a JSON first message whose `type` field is not
`"auth"` is closed with 1008 "Invalid auth message" and leaves the registry
untouched; a non-JSON first message aborts the session through the exception
handler with no 1008 close; the kind checks are the Python comparisons
`reverse == True` / `reverse == False`, which the JSON numbers `1`/`1.0`
(resp. `0`/`0.0`) also satisfy, so any `reverse` value Python-equal to
`True` (resp. `False`) with a registered reverse (resp. forward) token
authenticates with `auth_response success:true` and a fresh client id; an
auth-typed message passing neither kind check with a registered token of the
matched kind receives `auth_response success:false` then close 1008
"Invalid token", with no registry mutation and no client id allocated. -/
theorem auth_phase_spec :
    (∀ (s : SrvState) (a : AuthJson) (f w : Nat), a.ty ≠ some "auth" →
      handleAuth s (.json a) f w = (.closeInvalidAuth, s)) ∧
    (∀ (s : SrvState) (f w : Nat),
      handleAuth s .notJson f w = (.errorNoClose, s)) ∧
    (∀ (s : SrvState) (a : AuthJson) (f w : Nat),
      a.ty = some "auth" → validAuth s a = false →
      handleAuth s (.json a) f w = (.failInvalidToken, s)) ∧
    (∀ (s : SrvState) (t : String) (f w : Nat) (r : Option RevField),
      pyEqTrue r = true → (alookup t s.tokens).isSome →
      handleAuth s (.json ⟨some "auth", some t, r⟩) f w =
        (.okReverse f, authReverse s t f w)) ∧
    (∀ (s : SrvState) (t : String) (f w : Nat) (r : Option RevField),
      pyEqFalse r = true → t ∈ s.forwardTokens →
      handleAuth s (.json ⟨some "auth", some t, r⟩) f w =
        (.okForward f,
         { s with forwardClients := aset f w s.forwardClients })) ∧
    (pyEqTrue (some (.num 1)) = true ∧ pyEqFalse (some (.num 0)) = true ∧
     pyEqTrue (some (.b true)) = true ∧ pyEqFalse (some (.b false)) = true ∧
     pyEqTrue (some .other) = false ∧ pyEqFalse (some .other) = false ∧
     pyEqTrue none = false ∧ pyEqFalse none = false) := by
  refine ⟨?_, ?_, ?_, ?_, ?_, by decide, by decide, rfl, rfl, rfl, rfl, rfl,
    rfl⟩
  · intro s a f w hty
    simp [handleAuth, hty]
  · intro s f w
    rfl
  · intro s a f w hty hval
    cases a with
    | mk ty tok rev =>
      simp only at hty
      subst hty
      cases tok with
      | none => simp [handleAuth]
      | some t =>
        by_cases h1 : pyEqTrue rev ∧ (alookup t s.tokens).isSome
        · exfalso
          obtain ⟨ha, hb⟩ := h1
          simp only [validAuth] at hval
          simp [ha, hb] at hval
        · by_cases h2 : pyEqFalse rev ∧ t ∈ s.forwardTokens
          · exfalso
            obtain ⟨ha, hb⟩ := h2
            simp only [validAuth] at hval
            simp [ha, hb] at hval
          · simp [handleAuth, h1, h2]
  · intro s t f w r hr hreg
    simp [handleAuth, hr, hreg]
  · intro s t f w r hr hfwd
    have hnt : pyEqTrue r = false := pyEqTrue_false_of_pyEqFalse r hr
    simp [handleAuth, hnt, hr, hfwd]

theorem auth_phase_spec_witness :
    handleAuth (SrvState.init [] true) (.json ⟨some "hello", none, none⟩) 0 0 =
      (.closeInvalidAuth, SrvState.init [] true) ∧
    handleAuth sampleRev (.json ⟨some "auth", some "T", some (.num 1)⟩) 9 109 =
      (.okReverse 9, authReverse sampleRev "T" 9 109) ∧
    handleAuth sampleRev (.json ⟨some "auth", some "F", some (.b false)⟩) 8 108 =
      (.okForward 8,
       { sampleRev with forwardClients := aset 8 108 sampleRev.forwardClients }) ∧
    handleAuth sampleRev (.json ⟨some "auth", some "T", some .other⟩) 0 0 =
      (.failInvalidToken, sampleRev) := by
  refine ⟨?_, ?_, ?_, ?_⟩
  · exact auth_phase_spec.1 (SrvState.init [] true) ⟨some "hello", none, none⟩
      0 0 (by decide)
  · exact auth_phase_spec.2.2.2.1 sampleRev "T" 9 109 (some (.num 1))
      (by decide) (by decide)
  · exact auth_phase_spec.2.2.2.2.1 sampleRev "F" 8 108 (some (.b false)) rfl
      (by decide)
  · exact auth_phase_spec.2.2.1 sampleRev ⟨some "auth", some "T", some .other⟩
      0 0 rfl (by decide)

/-! ## Claims about token administration -/

/-- Claim C5: `add_reverse_token` is idempotent by token — a call with a
token already registered returns its existing `(token, port)` pair and leaves
the whole state (port pool, credentials, registries) unchanged; a successful
call records the port; and when the pool cannot supply the requested (or
any) port, the call returns `(none, none)` and changes nothing. -/
theorem add_reverse_token_spec :
    (∀ (s : SrvState) (t : String) (p : Nat) (g : String) (port : Option Nat)
        (u pw : Option String), alookup t s.tokens = some p →
      addReverseToken s g (some t) port u pw = ((some t, some p), s)) ∧
    (∀ (s : SrvState) (g t : String) (port : Option Nat) (u pw : Option String)
        (p : Nat) (s' : SrvState),
      addReverseToken s g (some t) port u pw = ((some t, some p), s') →
      alookup t s'.tokens = some p) ∧
    (∀ (s : SrvState) (g t : String) (port : Option Nat) (u pw : Option String),
      alookup t s.tokens = none → (poolGet s.pool port).1 = none →
      addReverseToken s g (some t) port u pw = ((none, none), s)) := by
  refine ⟨?_, ?_, ?_⟩
  · intro s t p g port u pw ht
    simp [addReverseToken, ht]
  · intro s g t port u pw p s' heq
    have h1 : (addReverseToken s g (some t) port u pw).1 = (some t, some p) := by
      rw [heq]
    have h2 : (addReverseToken s g (some t) port u pw).2 = s' := by
      rw [heq]
    cases ht : alookup t s.tokens with
    | some p0 =>
      simp only [addReverseToken, ht, Option.getD_some, Prod.mk.injEq,
        Option.some.injEq] at h1 h2
      rw [← h2, ht, h1.2]
    | none =>
      cases hget : poolGet s.pool port with
      | mk o pool' =>
        cases o with
        | none =>
          simp [addReverseToken, ht, hget] at h1
        | some p1 =>
          by_cases hz : p1 = 0
          · subst hz
            simp [addReverseToken, ht, hget] at h1
          · simp [addReverseToken, ht, hget, hz] at h1 h2
            rw [← h2]
            show alookup t (aset t p1 s.tokens) = some p
            rw [← h1]
            exact alookup_aset_self t p1 s.tokens
  · intro s g t port u pw ht hpool
    have hpool2 : (poolGet s.pool port).2 = s.pool := poolGet_none_pool _ _ hpool
    cases hget : poolGet s.pool port with
    | mk o pool' =>
      rw [hget] at hpool hpool2
      simp only at hpool hpool2
      subst hpool
      subst hpool2
      simp [addReverseToken, ht, hget]

def freshSrv : SrvState := SrvState.init [1080, 1081] true

theorem add_reverse_token_spec_witness :
    addReverseToken sampleRev "g" (some "T") none none none =
      ((some "T", some 1080), sampleRev) ∧
    alookup "T"
      (addReverseToken freshSrv "g" (some "T") (some 1080) none none).2.tokens =
        some 1080 ∧
    addReverseToken freshSrv "g" (some "X") (some 9999) none none =
      ((none, none), freshSrv) := by
  refine ⟨?_, ?_, ?_⟩
  · exact add_reverse_token_spec.1 sampleRev "T" 1080 "g" none none none
      (by decide)
  · exact add_reverse_token_spec.2.1 freshSrv "g" "T" (some 1080) none none
      1080 _ (by decide)
  · exact add_reverse_token_spec.2.2 freshSrv "g" "X" (some 9999) none none
      (by decide) (by decide)

end Pywssocks

namespace Pywssocks

theorem removeToken_false_iff (s : SrvState) (t : String) :
    (removeToken s t).1 = false ↔
      (alookup t s.tokens = none ∧ t ∉ s.forwardTokens) := by
  cases ht : alookup t s.tokens with
  | some p => simp [removeToken, ht]
  | none =>
    by_cases hf : t ∈ s.forwardTokens
    · simp [removeToken, ht, hf]
    · simp [removeToken, ht, hf]

/-- Claim C6: `remove_token` returns false exactly when the token is neither
a registered reverse nor forward token (so a second call on a removed token
returns false).  For a registered reverse token with connected clients it
returns true, closes each of the token's peer WebSockets with 1000 "Token
removed", evicts their client records, drops the SOCKS supervisor task for
the token's port, and returns the port to the pool, so that a subsequent
`add_reverse_token` requesting that same port succeeds. -/
theorem remove_token_spec :
    (∀ (s : SrvState) (t : String),
      (removeToken s t).1 = false ↔
        (alookup t s.tokens = none ∧ t ∉ s.forwardTokens)) ∧
    (∀ (s : SrvState) (t : String) (p : Nat) (cl : List (Nat × Nat)),
      s.loopRunning = true →
      alookup t s.tokens = some p →
      alookup t s.tokenClients = some cl →
      t ∉ s.forwardTokens →
      p ≠ 0 →
      (removeToken s t).1 = true ∧
      (removeToken s t).2.1 = cl.map (fun c => (c.2, 1000, "Token removed")) ∧
      alookup t (removeToken s t).2.2.tokens = none ∧
      alookup t (removeToken s t).2.2.tokenClients = none ∧
      (∀ c ∈ cl, alookup c.1 (removeToken s t).2.2.clients = none) ∧
      p ∉ (removeToken s t).2.2.socksTasks ∧
      p ∈ (removeToken s t).2.2.pool ∧
      (removeToken (removeToken s t).2.2 t).1 = false ∧
      (∀ (g : String) (u pw : Option String),
        (addReverseToken (removeToken s t).2.2 g (some t) (some p) u pw).1 =
          (some t, some p))) := by
  refine ⟨removeToken_false_iff, ?_⟩
  intro s t p cl hloop ht hcl hfwd hp0
  have htok : (removeToken s t).2.2.tokens = aremove t s.tokens := by
    simp [removeToken, ht]
  have htc : (removeToken s t).2.2.tokenClients = aremove t s.tokenClients := by
    simp [removeToken, ht]
  have hcli : (removeToken s t).2.2.clients =
      cl.foldl (fun acc c => aremove c.1 acc) s.clients := by
    simp [removeToken, ht, hcl]
  have hst : (removeToken s t).2.2.socksTasks = nremove p s.socksTasks := by
    simp [removeToken, ht]
  have hpl : (removeToken s t).2.2.pool = poolPut s.pool p := by
    simp [removeToken, ht]
  have hfw : (removeToken s t).2.2.forwardTokens = s.forwardTokens := by
    simp [removeToken, ht]
  refine ⟨?_, ?_, ?_, ?_, ?_, ?_, ?_, ?_, ?_⟩
  · simp [removeToken, ht]
  · simp [removeToken, ht, hcl, hloop]
  · rw [htok]; exact alookup_aremove_self t s.tokens
  · rw [htc]; exact alookup_aremove_self t s.tokenClients
  · rw [hcli]; exact alookup_foldl_aremove cl s.clients
  · rw [hst]; exact not_mem_nremove_self p s.socksTasks
  · rw [hpl]; exact mem_poolPut_self s.pool p
  · refine (removeToken_false_iff _ t).2 ⟨?_, ?_⟩
    · rw [htok]; exact alookup_aremove_self t s.tokens
    · rw [hfw]; exact hfwd
  · intro g u pw
    have ht2 : alookup t (removeToken s t).2.2.tokens = none := by
      rw [htok]; exact alookup_aremove_self t s.tokens
    have hm : p ∈ (removeToken s t).2.2.pool := by
      rw [hpl]; exact mem_poolPut_self s.pool p
    simp [addReverseToken, ht2, poolGet, hm, hp0]

theorem remove_token_spec_witness :
    (removeToken sampleRev "T").1 = true ∧
    (removeToken sampleRev "T").2.1 =
      [(101, 1000, "Token removed"), (102, 1000, "Token removed")] ∧
    alookup "T" (removeToken sampleRev "T").2.2.tokens = none ∧
    (1080 : Nat) ∈ (removeToken sampleRev "T").2.2.pool ∧
    (addReverseToken (removeToken sampleRev "T").2.2 "g" (some "T") (some 1080)
      none none).1 = (some "T", some 1080) := by
  have h := remove_token_spec.2 sampleRev "T" 1080 [(1, 101), (2, 102)] rfl
    (by decide) (by decide) (by decide) (by decide)
  exact ⟨h.1, by rw [h.2.1]; decide, h.2.2.1, h.2.2.2.2.2.2.1,
    h.2.2.2.2.2.2.2.2 "g" none none⟩

end Pywssocks

namespace Pywssocks

/-! ## Claims about the cursor invariant -/

/-- Reachable registry state: token "T" on port 1080 with three clients
authenticated, two selections performed (cursor 2), then the first client
disconnects, leaving two clients with the stale cursor 2. -/
def c7State : SrvState :=
  srvStep (srvStep (srvStep (srvStep (srvStep (srvStep (srvStep
    (SrvState.init [1080] true)
    (.addReverse "g" (some "T") none none none))
    (.wsAuth (.json ⟨some "auth", some "T", some (.b true)⟩) 1 101))
    (.wsAuth (.json ⟨some "auth", some "T", some (.b true)⟩) 2 102))
    (.wsAuth (.json ⟨some "auth", some "T", some (.b true)⟩) 3 103))
    (.select "T"))
    (.select "T"))
    (.disconnect 1 "T")

/-- Claim C7 counterexample: in the reachable state `c7State` the token "T"
has the non-empty client list [(2,102),(3,103)] but its stored round-robin
cursor is 2, which is not strictly less than the list length 2 —
`_cleanup_connection` filters the client list without adjusting
`_token_indexes`. -/
theorem cursor_bound_counterexample :
    SrvReaches c7State ∧
    alookup "T" c7State.tokenClients = some [(2, 102), (3, 103)] ∧
    alookup "T" c7State.tokenIndexes = some 2 ∧
    ¬(2 < ([(2, 102), (3, 103)] : List (Nat × Nat)).length) := by
  refine ⟨?_, by decide, by decide, by decide⟩
  exact SrvReaches.step _ _ (SrvReaches.step _ _ (SrvReaches.step _ _
    (SrvReaches.step _ _ (SrvReaches.step _ _ (SrvReaches.step _ _
      (SrvReaches.step _ _ (SrvReaches.init [1080] true)))))))

/-- Claim C7 (amended): the bound `cursor < len(clients)` is established by
every round-robin selection on a non-empty list and preserved by client
append (authentication), but client-disconnect removal can leave the stored
cursor at or beyond the shortened list's length; selection itself stays
well-defined because the cursor is reduced modulo the current length before
use. -/
theorem cursor_bound_select_append :
    (∀ (s : SrvState) (token : String) (cl : List (Nat × Nat)),
      alookup token s.tokenClients = some cl → cl ≠ [] →
      ∃ i, alookup token (getNextWebsocket s token).2.tokenIndexes = some i ∧
        i < cl.length) ∧
    (∀ (s : SrvState) (token : String) (uuid ws i : Nat)
        (cl : List (Nat × Nat)),
      alookup token s.tokenClients = some cl →
      alookup token s.tokenIndexes = some i → i < cl.length →
      alookup token (authReverse s token uuid ws).tokenClients =
        some (cl ++ [(uuid, ws)]) ∧
      alookup token (authReverse s token uuid ws).tokenIndexes = some i ∧
      i < (cl ++ [(uuid, ws)]).length) := by
  constructor
  · intro s token cl hcl hne
    have hpos : 0 < cl.length := List.length_pos.2 hne
    have hemp : cl.isEmpty = false := by
      cases cl with
      | nil => exact absurd rfl hne
      | cons a l => rfl
    refine ⟨((alookup token s.tokenIndexes).getD 0 + 1) % cl.length, ?_,
      Nat.mod_lt _ hpos⟩
    simp only [getNextWebsocket, hcl, hemp]
    simp [alookup_aset_self]
  · intro s token uuid ws i cl hcl hidx hlt
    refine ⟨?_, ?_, ?_⟩
    · simp [authReverse, hcl, alookup_aset_self]
    · simpa [authReverse] using hidx
    · simp only [List.length_append, List.length_cons, List.length_nil]
      omega

/-- `sampleRev` with the round-robin cursor at 1. -/
def sampleRevIdx : SrvState :=
  { sampleRev with tokenIndexes := [("T", 1)] }

theorem cursor_bound_select_append_witness :
    (∃ i, alookup "T" (getNextWebsocket sampleRev "T").2.tokenIndexes = some i ∧
      i < ([(1, 101), (2, 102)] : List (Nat × Nat)).length) ∧
    alookup "T" (authReverse sampleRevIdx "T" 5 105).tokenClients =
      some [(1, 101), (2, 102), (5, 105)] ∧
    alookup "T" (authReverse sampleRevIdx "T" 5 105).tokenIndexes = some 1 := by
  have h2 := cursor_bound_select_append.2 sampleRevIdx "T" 5 105 1
    [(1, 101), (2, 102)] (by decide) (by decide) (by decide)
  exact ⟨cursor_bound_select_append.1 sampleRev "T" [(1, 101), (2, 102)]
    (by decide) (by decide), h2.1, h2.2.1⟩

/-! ## Claims about the message dispatcher -/

/-- Claim C8: the dispatcher spawns an outbound-connection handler for a
`connect` frame exactly when the session's client id is registered as a
forward client; on a session authenticated with a reverse token (whose fresh
id is not a forward client) a `connect` frame is ignored. -/
theorem connect_requires_forward_client :
    (∀ (s : SrvState) (cid : Nat) (f : Frame),
      dispatchFrame s cid f = .spawnConnect ↔
        (f.ty = "connect" ∧ (alookup cid s.forwardClients).isSome)) ∧
    (∀ (s : SrvState) (cid : Nat) (f : Frame),
      f.ty = "connect" → alookup cid s.forwardClients = none →
      dispatchFrame s cid f = .ignore) ∧
    (∀ (s : SrvState) (t : String) (fresh w : Nat) (f : Frame),
      (alookup t s.tokens).isSome →
      alookup fresh s.forwardClients = none →
      f.ty = "connect" →
      dispatchFrame
        (handleAuth s (.json ⟨some "auth", some t, some (.b true)⟩) fresh w).2
        fresh f = .ignore) := by
  refine ⟨?_, ?_, ?_⟩
  · intro s cid f
    constructor
    · intro h
      by_cases hd : f.ty = "data"
      · by_cases hq : f.chanId ∈ s.messageQueues <;>
          simp [dispatchFrame, hd, hq] at h
      · by_cases hc : f.ty = "connect_response"
        · by_cases hq : f.chanId ∈ s.messageQueues <;>
            simp [dispatchFrame, hd, hc, hq] at h
        · by_cases hco : f.ty = "connect" ∧ (alookup cid s.forwardClients).isSome
          · exact hco
          · simp [dispatchFrame, hd, hc, hco] at h
    · rintro ⟨hty, hmem⟩
      have hd : f.ty ≠ "data" := by rw [hty]; decide
      have hc : f.ty ≠ "connect_response" := by rw [hty]; decide
      simp [dispatchFrame, hd, hc, hty, hmem]
  · intro s cid f hty hnone
    have hd : f.ty ≠ "data" := by rw [hty]; decide
    have hc : f.ty ≠ "connect_response" := by rw [hty]; decide
    simp [dispatchFrame, hd, hc, hnone]
  · intro s t fresh w f hreg hnone hty
    have hfc : (handleAuth s (.json ⟨some "auth", some t, some (.b true)⟩)
        fresh w).2.forwardClients = s.forwardClients := by
      simp [handleAuth, pyEqTrue, hreg, authReverse]
    have hd : f.ty ≠ "data" := by rw [hty]; decide
    have hc : f.ty ≠ "connect_response" := by rw [hty]; decide
    simp [dispatchFrame, hd, hc, hfc, hnone]

theorem connect_requires_forward_client_witness :
    dispatchFrame sampleRev 7 ⟨"connect", "x"⟩ = .spawnConnect ∧
    dispatchFrame sampleRev 1 ⟨"connect", "x"⟩ = .ignore := by
  constructor
  · exact (connect_requires_forward_client.1 sampleRev 7 ⟨"connect", "x"⟩).2
      ⟨rfl, by decide⟩
  · exact connect_requires_forward_client.2.1 sampleRev 1 ⟨"connect", "x"⟩ rfl
      (by decide)

end Pywssocks

namespace Pywssocks

/-! ## Claims about the SOCKS handler and forward-token removal -/

theorem pollLoop_never (present : Nat → Bool) (time : Nat → Nat) (start : Nat)
    (h : ∀ j, present j = false) :
    ∀ (fuel i : Nat), pollLoop present time start fuel i = none := by
  intro fuel
  induction fuel with
  | zero => intro i; rfl
  | succ n ih =>
    intro i
    by_cases htime : start + 100 ≤ time i
    · simp [pollLoop, htime]
    · simp [pollLoop, htime, h i, ih (i + 1)]

theorem pollLoop_elapsed (present : Nat → Bool) (time : Nat → Nat)
    (start fuel i : Nat) (h : start + 100 ≤ time i) :
    pollLoop present time start fuel i = none := by
  cases fuel with
  | zero => rfl
  | succ n => simp [pollLoop, h]

/-- Claim C9: a SOCKS connection accepted for a token with no entry in the
client registry waits through the poll loop (bounded by 100 deciseconds =
10 s, one poll per 100 ms sleep); if no client ever attaches the request is
refused with SOCKS reply code 3, and if the round-robin selection afterwards
yields no websocket the request is likewise refused with code 3. -/
theorem socks_no_client_refusal :
    (∀ (present : Nat → Bool) (time : Nat → Nat) (start fuel i : Nat),
      (∀ j, present j = false) → pollLoop present time start fuel i = none) ∧
    (∀ (present : Nat → Bool) (time : Nat → Nat) (start fuel i : Nat),
      start + 100 ≤ time i → pollLoop present time start fuel i = none) ∧
    (∀ (stateAt : Nat → SrvState) (token : String) (time : Nat → Nat)
        (fuel : Nat),
      alookup token (stateAt 0).tokenClients = none →
      (∀ i, clientsPresent (stateAt i) token = false) →
      handleSocksRequest stateAt token time fuel = (.refuse 3, stateAt 0)) ∧
    (∀ (stateAt : Nat → SrvState) (token : String) (time : Nat → Nat)
        (fuel : Nat),
      (alookup token (stateAt 0).tokenClients).isSome = true →
      (getNextWebsocket (stateAt 0) token).1 = none →
      (handleSocksRequest stateAt token time fuel).1 = .refuse 3) := by
  refine ⟨?_, ?_, ?_, ?_⟩
  · intro present time start fuel i h
    exact pollLoop_never present time start h fuel i
  · intro present time start fuel i h
    exact pollLoop_elapsed present time start fuel i h
  · intro stateAt token time fuel hnone hpres
    have hpoll := pollLoop_never (fun i => clientsPresent (stateAt i) token)
      time (time 0) hpres fuel 0
    simp [handleSocksRequest, hnone, hpoll]
  · intro stateAt token time fuel hsome hsel
    have hnn : (alookup token (stateAt 0).tokenClients).isNone = false := by
      cases h : alookup token (stateAt 0).tokenClients with
      | none => rw [h] at hsome; simp at hsome
      | some cl => simp
    cases hg : getNextWebsocket (stateAt 0) token with
    | mk o s' =>
      rw [hg] at hsel
      simp only at hsel
      subst hsel
      simp [handleSocksRequest, hnn, hg]

theorem socks_no_client_refusal_witness :
    handleSocksRequest (fun _ => freshSrv) "T" (fun i => i) 5 =
      (.refuse 3, freshSrv) := by
  exact socks_no_client_refusal.2.2.1 (fun _ => freshSrv) "T" (fun i => i) 5
    (by decide) (fun i => rfl)

/-- Claim C10: removing a registered forward token closes and removes EVERY
entry of the forward-clients map — including clients authenticated with a
different, still-registered forward token — and leaves every reverse-token
registry (tokens, ports, clients-by-token, locks, cursors, credentials, pool,
supervisor tasks) unchanged. -/
theorem remove_forward_token_frame (s : SrvState) (t : String)
    (hfwd : t ∈ s.forwardTokens) (ht : alookup t s.tokens = none)
    (hloop : s.loopRunning = true) :
    (removeToken s t).1 = true ∧
    (removeToken s t).2.1 =
      s.forwardClients.map (fun c => (c.2, 1000, "Token removed")) ∧
    (removeToken s t).2.2.forwardClients = [] ∧
    (removeToken s t).2.2.forwardTokens = sremove t s.forwardTokens ∧
    (removeToken s t).2.2.tokens = s.tokens ∧
    (removeToken s t).2.2.tokenClients = s.tokenClients ∧
    (removeToken s t).2.2.tokenLocks = s.tokenLocks ∧
    (removeToken s t).2.2.tokenIndexes = s.tokenIndexes ∧
    (removeToken s t).2.2.socksAuth = s.socksAuth ∧
    (removeToken s t).2.2.pool = s.pool ∧
    (removeToken s t).2.2.socksTasks = s.socksTasks ∧
    (removeToken s t).2.2.clients = s.clients ∧
    (removeToken s t).2.2.pendingTokens = s.pendingTokens := by
  refine ⟨?_, ?_, ?_, ?_, ?_, ?_, ?_, ?_, ?_, ?_, ?_, ?_, ?_⟩ <;>
    simp [removeToken, ht, hfwd, hloop]

theorem remove_forward_token_frame_witness :
    (removeToken sampleRev "F").1 = true ∧
    (removeToken sampleRev "F").2.1 = [(107, 1000, "Token removed")] ∧
    (removeToken sampleRev "F").2.2.forwardClients = [] ∧
    (removeToken sampleRev "F").2.2.tokens = sampleRev.tokens := by
  have h := remove_forward_token_frame sampleRev "F" (by decide) (by decide) rfl
  exact ⟨h.1, by rw [h.2.1]; decide, h.2.2.1, h.2.2.2.2.1⟩

end Pywssocks
